import Mathlib

/-!
# Smart-AgroTech: remote sensor nodes and the central receiver

A shallow embedding of the three Arduino sketches of the repository

* `REMOTE NODE 1/code1.cpp`  (soil sampler, namespace `RemoteNode1`),
* `REMOTE NODE 2/code2.cpp`  (flame / voltage sampler, namespace `RemoteNode2`),
* `CENTRAL NODE RECEIVE/code3.cpp` (receiver, namespace `CentralNode`),

together with the properties of their `setup` / `loop` functions.

Every `loop` is a function on an explicit node state.  Calls into the board
support library (`analogRead`, `digitalRead`, `digitalWrite`, `delay`,
`Serial.print`) and into the radio driver (`radio.write`, `radio.available`,
`radio.read`) are recorded, in program order, in the `trace` of the state.
Values the sketch obtains from the outside (pin readings, the result of
`radio.write`, the contents of uninitialised storage) are inputs of `loop`.
-/

namespace SmartAgroTech

/-! ## Target data representation -/

/-- The data-representation parameters of the compiler target.  The sketches do
not name the board they are compiled for, so the representation of `int`, the
padding inside `FireVoltData` and the precision of `double` are parameters.
Byte order is little-endian on every Arduino core. -/
structure ABI where
  /-- Value of `sizeof(int)`. -/
  intBytes : Nat
  /-- Number of padding bytes between `bool flameDetected` and `float voltage`. -/
  floatPad : Nat
  /-- Number of significand bits of `double` (24 where `double` is `float`). -/
  doublePrec : Nat
  /-- Exponent of the least significant bit of the subnormal `double`s. -/
  doubleEmin : Int
deriving DecidableEq, Repr

/-- The 8-bit AVR boards (Uno, Nano, Mega): 16-bit `int`, no padding,
`double` is the 32-bit `float`. -/
def avr : ABI := { intBytes := 2, floatPad := 0, doublePrec := 24, doubleEmin := -149 }

/-- The 32-bit cores (ARM, ESP): 32-bit `int`, `float` aligned to 4 bytes,
64-bit `double`. -/
def arm32 : ABI := { intBytes := 4, floatPad := 3, doublePrec := 53, doubleEmin := -1074 }

/-! ## Raw bytes -/

/-- The `w` low-order bytes of `x`, least significant first. -/
def toBytesLE : Nat → Nat → List Nat
  | 0, _ => []
  | w + 1, x => x % 256 :: toBytesLE w (x / 256)

/-- The number whose little-endian bytes are `bs`. -/
def ofBytesLE : List Nat → Nat
  | [] => 0
  | b :: bs => b + 256 * ofBytesLE bs

/-- Object representation of an `int` of `w` bytes (two's complement). -/
def intToBytes (w : Nat) (x : Int) : List Nat :=
  toBytesLE w (x % 2 ^ (8 * w)).toNat

/-- Value of the `int` stored in the first `w` bytes of `bs`. -/
def intOfBytes (w : Nat) (bs : List Nat) : Int :=
  let u := ofBytesLE (bs.take w)
  if 2 * u < 2 ^ (8 * w) then (u : Int) else (u : Int) - 2 ^ (8 * w)

/-- The values an `int` of `w` bytes can hold. -/
def IsInt (w : Nat) (x : Int) : Prop :=
  -(2 ^ (8 * w - 1) : Int) ≤ x ∧ x < 2 ^ (8 * w - 1)

instance (w : Nat) (x : Int) : Decidable (IsInt w x) := by
  unfold IsInt
  exact inferInstance

/-- Object representation of a `bool`. -/
def boolToByte (b : Bool) : Nat := if b then 1 else 0

/-- Value of a `bool` read from a byte. -/
def boolOfByte (b : Nat) : Bool := decide (b ≠ 0)

/-! ## Binary floating point -/

/-- Nearest integer to `n / d`, ties to even. -/
def roundHalfEven (n d : Nat) : Nat :=
  let q := n / d
  let r := n % d
  if 2 * r < d then q
  else if d < 2 * r then q + 1
  else if q % 2 = 0 then q else q + 1

/-- Number of binary digits of the second argument, the first bounding the
recursion. -/
def bitLenAux : Nat → Nat → Nat
  | 0, _ => 0
  | fuel + 1, n => if n = 0 then 0 else bitLenAux fuel (n / 2) + 1

/-- Number of binary digits of `n`. -/
def bitLen (n : Nat) : Nat := bitLenAux n n

/-- The fraction `n / d` scaled by `2 ^ (-e)`, as a numerator and a denominator. -/
def scalePow2 (n d : Nat) (e : Int) : Nat × Nat :=
  if 0 ≤ e then (n, d * 2 ^ e.toNat) else (n * 2 ^ (-e).toNat, d)

/-- Value of `⌊log₂ (n / d)⌋` for positive `n` and `d`. -/
def floorLog2 (n d : Nat) : Int :=
  let k : Int := (bitLen n : Int) - (bitLen d : Int)
  let s := scalePow2 n d k
  if s.2 ≤ s.1 then k else k - 1

/-- A finite binary floating-point number `(-1)^neg * m * 2^e`. -/
structure Flt where
  neg : Bool
  m : Nat
  e : Int
deriving DecidableEq, Repr

/-- The rational value of a floating-point number. -/
def Flt.toRat (x : Flt) : ℚ :=
  (if x.neg then -1 else 1) * (x.m : ℚ) * (2 : ℚ) ^ x.e

/-- Round `(-1)^neg * n / d` to `p` significand bits, to nearest, ties to even,
with the exponent not lower than `emin` (gradual underflow).  The exponent has
no upper bound here: overflow is handled where a value is stored into a
`float`, and no intermediate `double` overflows for a reading of type `int`. -/
def Flt.round (p : Nat) (emin : Int) (neg : Bool) (n d : Nat) : Flt :=
  if n = 0 then { neg := neg, m := 0, e := 0 }
  else
    let e : Int := max (floorLog2 n d - (p : Int) + 1) emin
    let s := scalePow2 n d e
    { neg := neg, m := roundHalfEven s.1 s.2, e := e }

/-- Conversion of an integer to a floating-point format. -/
def Flt.ofInt (p : Nat) (emin : Int) (x : Int) : Flt :=
  Flt.round p emin (decide (x < 0)) x.natAbs 1

/-- Floating-point multiplication: the exact product, rounded once. -/
def Flt.mul (p : Nat) (emin : Int) (a b : Flt) : Flt :=
  let s := scalePow2 (a.m * b.m) 1 (-(a.e + b.e))
  Flt.round p emin (xor a.neg b.neg) s.1 s.2

/-- Floating-point division of two positive integer constants: the exact
quotient, rounded once. -/
def Flt.divConst (p : Nat) (emin : Int) (a b : Nat) : Flt :=
  Flt.round p emin false a b

/-- Conversion to `float`: the IEEE-754 binary32 bit pattern nearest to `x`
(sign bit 31, biased exponent bits 30..23, fraction bits 22..0), infinity on
overflow. -/
def F32.ofFlt (x : Flt) : Nat :=
  let s := scalePow2 x.m 1 (-x.e)
  let r := Flt.round 24 (-149) x.neg s.1 s.2
  let m := if 2 ^ 24 ≤ r.m then r.m / 2 else r.m
  let e := if 2 ^ 24 ≤ r.m then r.e + 1 else r.e
  let field : Int := if m < 2 ^ 23 then 0 else e + 150
  let sign := if x.neg then 2 ^ 31 else 0
  if 255 ≤ field then sign + 255 * 2 ^ 23
  else sign + field.toNat * 2 ^ 23 + m % 2 ^ 23

/-- The finite number a binary32 bit pattern stands for; `none` for an
infinity or a NaN. -/
def F32.toFlt (bits : Nat) : Option Flt :=
  let neg := decide (bits / 2 ^ 31 % 2 = 1)
  let field : Nat := bits / 2 ^ 23 % 256
  let frac : Nat := bits % 2 ^ 23
  if field = 255 then none
  else if field = 0 then some { neg := neg, m := frac, e := -149 }
  else some { neg := neg, m := 2 ^ 23 + frac, e := (field : Int) - 150 }

/-- The rational value of a binary32 bit pattern (zero for an infinity or a
NaN, which have none). -/
def F32.toRat (bits : Nat) : ℚ :=
  match F32.toFlt bits with
  | some x => x.toRat
  | none => 0

/-- Object representation of a `float` given by its bit pattern. -/
def floatToBytes (bits : Nat) : List Nat := toBytesLE 4 bits

/-- Bit pattern of the `float` stored in the first four bytes of `bs`. -/
def floatOfBytes (bs : List Nat) : Nat := ofBytesLE (bs.take 4)

/-! ## Board support and radio driver calls -/

/-- Arduino level constant `LOW`. -/
def LOW : Int := 0

/-- Arduino level constant `HIGH`. -/
def HIGH : Int := 1

/-- Pin modes of `pinMode`. -/
inductive PinMode
  | INPUT
  | OUTPUT
deriving DecidableEq, Repr

/-- Analog input channels named in the sketches. -/
inductive AnalogPin
  | A0
  | A1
deriving DecidableEq, Repr

/-- One call with an effect outside the sketch, with its arguments; for
`radio.write` also the result the driver returned. -/
inductive Event
  | digitalWrite (pin : Nat) (val : Int)
  | radioWrite (payload : List Nat) (ok : Bool)
  | radioRead (len : Nat)
  | delay (ms : Nat)
  | print (s : String)
  | printInt (n : Int)
  | printlnInt (n : Int)
  | printlnFloat (bits : Nat)
deriving DecidableEq, Repr

/-- The event is a transmission. -/
def Event.isWrite : Event → Bool
  | .radioWrite _ _ => true
  | _ => false

/-- The event with the result of a transmission forgotten. -/
def Event.eraseResult : Event → Event
  | .radioWrite p _ => .radioWrite p true
  | ev => ev

/-- Payload of the most recent transmission in a trace. -/
def lastWrite : List Event → Option (List Nat)
  | [] => none
  | ev :: rest =>
    match lastWrite rest with
    | some p => some p
    | none =>
      match ev with
      | .radioWrite p _ => some p
      | _ => none

/-! ## Remote Node 1 (`REMOTE NODE 1/code1.cpp`) -/

namespace RemoteNode1

/-- Record `struct SoilData { int soilTop; int soilDeep; }` of `code1.cpp`. -/
structure SoilData where
  soilTop : Int
  soilDeep : Int
deriving DecidableEq, Repr

/-- Value of `sizeof(SoilData)`: two `int`s, no padding. -/
def SoilData.sizeof (abi : ABI) : Nat := abi.intBytes + abi.intBytes

/-- Object representation of a `SoilData`: the fields in declaration order. -/
def SoilData.toBytes (abi : ABI) (d : SoilData) : List Nat :=
  intToBytes abi.intBytes d.soilTop ++ intToBytes abi.intBytes d.soilDeep

/-- What one cycle obtains from outside the sketch. -/
structure Inputs where
  /-- Result of `analogRead` on each channel. -/
  analogRead : AnalogPin → Int
  /-- Result of `radio.write`. -/
  writeOk : Bool

/-- Observable state of the node: the calls made so far, oldest first. -/
structure State where
  trace : List Event
deriving DecidableEq, Repr

/-- Call `radio.write(buf, len)`: the first `len` bytes at `buf` are handed to
the radio, the driver's result is returned. -/
def radioWrite (s : State) (buf : List Nat) (len : Nat) (ok : Bool) : Bool × State :=
  (ok, { s with trace := s.trace ++ [Event.radioWrite (buf.take len) ok] })

/-- Call `delay(ms)`. -/
def delay (s : State) (ms : Nat) : State :=
  { s with trace := s.trace ++ [Event.delay ms] }

/-- Function `setup` of `code1.cpp`: the radio is configured as a transmitter
on address "NODE1"; nothing is transmitted. -/
def setup : State := { trace := [] }

/-- Function `loop` of `code1.cpp`. -/
def loop (abi : ABI) (inp : Inputs) (s : State) : State :=
  let data : SoilData :=
    { soilTop := inp.analogRead AnalogPin.A0
      soilDeep := inp.analogRead AnalogPin.A1 }
  let s := (radioWrite s (data.toBytes abi) (SoilData.sizeof abi) inp.writeOk).2
  delay s 2000

end RemoteNode1

/-! ## Remote Node 2 (`REMOTE NODE 2/code2.cpp`) -/

namespace RemoteNode2

/-- Record `struct FireVoltData { bool flameDetected; float voltage; }` of
`code2.cpp`; the `float` is held as its bit pattern. -/
structure FireVoltData where
  flameDetected : Bool
  voltage : Nat
deriving DecidableEq, Repr

/-- Value of `sizeof(FireVoltData)`. -/
def FireVoltData.sizeof (abi : ABI) : Nat := 1 + abi.floatPad + 4

/-- Object representation of a `FireVoltData`.  The padding bytes are never
written by the sketch: they keep what the storage held before (`uninit`). -/
def FireVoltData.toBytes (abi : ABI) (uninit : List Nat) (d : FireVoltData) : List Nat :=
  [boolToByte d.flameDetected]
    ++ (uninit ++ List.replicate abi.floatPad 0).take abi.floatPad
    ++ floatToBytes d.voltage

/-- What one cycle obtains from outside the sketch. -/
structure Inputs where
  /-- Result of `digitalRead` on each pin. -/
  digitalRead : Nat → Int
  /-- Result of `analogRead` on each channel. -/
  analogRead : AnalogPin → Int
  /-- Result of `radio.write`. -/
  writeOk : Bool
  /-- Contents of the storage of the local `data` when the cycle starts. -/
  uninit : List Nat

/-- Observable state of the node: pin configuration, the level driven on each
pin, and the calls made so far, oldest first. -/
structure State where
  mode : Nat → Option PinMode
  level : Nat → Int
  trace : List Event

/-- Call `pinMode(pin, m)`. -/
def pinMode (s : State) (pin : Nat) (m : PinMode) : State :=
  { s with mode := fun q => if q = pin then some m else s.mode q }

/-- Call `digitalWrite(pin, val)`. -/
def digitalWrite (s : State) (pin : Nat) (val : Int) : State :=
  { s with
    level := fun q => if q = pin then val else s.level q
    trace := s.trace ++ [Event.digitalWrite pin val] }

/-- Call `radio.write(buf, len)`: the first `len` bytes at `buf` are handed to
the radio, the driver's result is returned. -/
def radioWrite (s : State) (buf : List Nat) (len : Nat) (ok : Bool) : Bool × State :=
  (ok, { s with trace := s.trace ++ [Event.radioWrite (buf.take len) ok] })

/-- Call `delay(ms)`. -/
def delay (s : State) (ms : Nat) : State :=
  { s with trace := s.trace ++ [Event.delay ms] }

/-- The expression `analogRead(A0) * (5.0 / 1023.0) * (40)` stored into a
`float`: the `int` reading is converted to `double`, multiplied by the
`double` constant `5.0 / 1023.0`, the product multiplied by `40` converted to
`double`, and the result converted to `float`. -/
def voltageOf (abi : ABI) (raw : Int) : Nat :=
  let p := abi.doublePrec
  let emin := abi.doubleEmin
  F32.ofFlt
    (Flt.mul p emin
      (Flt.mul p emin (Flt.ofInt p emin raw) (Flt.divConst p emin 5 1023))
      (Flt.ofInt p emin 40))

/-- Function `setup` of `code2.cpp`, from the state `s` at power-on. -/
def setup (s : State) : State :=
  let s := pinMode s 2 PinMode.INPUT
  let s := pinMode s 3 PinMode.OUTPUT
  digitalWrite s 3 LOW

/-- Function `loop` of `code2.cpp`. -/
def loop (abi : ABI) (inp : Inputs) (s : State) : State :=
  let data : FireVoltData :=
    { flameDetected := decide (inp.digitalRead 2 = LOW)
      voltage := voltageOf abi (inp.analogRead AnalogPin.A0) }
  let s := if data.flameDetected then digitalWrite s 3 HIGH else digitalWrite s 3 LOW
  let s :=
    (radioWrite s (data.toBytes abi inp.uninit) (FireVoltData.sizeof abi) inp.writeOk).2
  delay s 2000

/-- The node after `setup` and one `loop` cycle for each element of `ins`,
in order. -/
def run (abi : ABI) (s : State) (ins : List Inputs) : State :=
  ins.foldl (fun t inp => loop abi inp t) (setup s)

end RemoteNode2

/-! ## Central Node (`CENTRAL NODE RECEIVE/code3.cpp`) -/

namespace CentralNode

/-- Record `struct SoilData { int soilTop; int soilDeep; }` of `code3.cpp`. -/
structure SoilData where
  soilTop : Int
  soilDeep : Int
deriving DecidableEq, Repr

/-- Record `struct FireVoltData { bool flameDetected; float voltage; }` of
`code3.cpp`.  The sketch fills the record from received bytes and never tests
`flameDetected`, it only widens it to `int` for printing; so the `bool` is held
as the byte stored for it (0 for `false`, 1 for `true`, and whatever else a
payload puts there).  The `float` is held as its bit pattern. -/
structure FireVoltData where
  flameDetected : Nat
  voltage : Nat
deriving DecidableEq, Repr

/-- Value of `sizeof(SoilData)`. -/
def SoilData.sizeof (abi : ABI) : Nat := abi.intBytes + abi.intBytes

/-- Value of `sizeof(FireVoltData)`. -/
def FireVoltData.sizeof (abi : ABI) : Nat := 1 + abi.floatPad + 4

/-- The `SoilData` whose storage holds the bytes `buf`. -/
def SoilData.ofBytes (abi : ABI) (buf : List Nat) : SoilData :=
  { soilTop := intOfBytes abi.intBytes buf
    soilDeep := intOfBytes abi.intBytes (buf.drop abi.intBytes) }

/-- The `FireVoltData` whose storage holds the bytes `buf`. -/
def FireVoltData.ofBytes (abi : ABI) (buf : List Nat) : FireVoltData :=
  { flameDetected := buf.headD 0
    voltage := floatOfBytes (buf.drop (1 + abi.floatPad)) }

/-- Modelled from the spec: the receive side of the radio driver, which is not
part of the repository.  It delivers pipe-addressed packets: the receive queue
holds, oldest first, each pending payload with the number of the pipe it
arrived on. -/
structure Radio where
  rxFifo : List (Nat × List Nat)
deriving DecidableEq, Repr

/-- Modelled from the spec: `radio.available()`, whether a payload is pending. -/
def Radio.available (r : Radio) : Bool := !r.rxFifo.isEmpty

/-- Modelled from the spec: `radio.available(&pipe)`, the value of `pipe`
after the call: the pipe of the oldest pending payload, and the old value when
nothing is pending. -/
def Radio.availablePipe (r : Radio) (pipe : Nat) : Nat :=
  match r.rxFifo with
  | [] => pipe
  | (p, _) :: _ => p

/-- Modelled from the spec: `radio.read(buf, len)`, which takes the oldest
pending payload off the queue and stores its first `len` bytes at `buf`.  For
a payload shorter than `len`, where the spec leaves the behaviour open, the
missing bytes are taken as zero (the driver pads its fixed-size payloads with
zeros). -/
def Radio.read (r : Radio) (len : Nat) : List Nat × Radio :=
  match r.rxFifo with
  | [] => (List.replicate len 0, r)
  | (_, payload) :: rest => ((payload ++ List.replicate len 0).take len, { rxFifo := rest })

/-- Observable state of the node: the radio and the calls made so far, oldest
first. -/
structure State where
  radio : Radio
  trace : List Event
deriving DecidableEq, Repr

/-- Call `radio.read(buf, len)`. -/
def radioRead (s : State) (len : Nat) : List Nat × State :=
  let r := s.radio.read len
  (r.1, { radio := r.2, trace := s.trace ++ [Event.radioRead len] })

/-- A call on `Serial`. -/
def serial (s : State) (ev : Event) : State :=
  { s with trace := s.trace ++ [ev] }

/-- Function `setup` of `code3.cpp`: the radio listens on pipe 1 (address
"NODE1") and pipe 2 (address "NODE2"); nothing is pending or printed yet. -/
def setup : State := { radio := { rxFifo := [] }, trace := [] }

/-- Function `loop` of `code3.cpp`.  `pipe0` is the value the uninitialised
local `pipe` happens to hold.  `Serial.print` of the `bool` field selects the
`int` overload: the stored byte is widened to `int` and printed, 1 or 0 for a
byte a sender stored from a `bool`. -/
def loop (abi : ABI) (pipe0 : Nat) (s : State) : State :=
  if s.radio.available then
    let pipe := s.radio.availablePipe pipe0
    if pipe = 1 then
      let r := radioRead s (SoilData.sizeof abi)
      let data := SoilData.ofBytes abi r.1
      let s := serial r.2 (Event.print "Soil Top: ")
      let s := serial s (Event.printInt data.soilTop)
      let s := serial s (Event.print " Soil Deep: ")
      serial s (Event.printlnInt data.soilDeep)
    else if pipe = 2 then
      let r := radioRead s (FireVoltData.sizeof abi)
      let data := FireVoltData.ofBytes abi r.1
      let s := serial r.2 (Event.print "Flame: ")
      let s := serial s (Event.printInt (data.flameDetected : Int))
      let s := serial s (Event.print " Voltage: ")
      serial s (Event.printlnFloat data.voltage)
    else s
  else s

/-- The state after `n` consecutive iterations of `loop`. -/
def iterate (abi : ABI) (pipe0 : Nat) : Nat → State → State
  | 0, s => s
  | n + 1, s => iterate abi pipe0 n (loop abi pipe0 s)

end CentralNode

/-! ## Sample inputs -/

/-- Remote Node 1 inputs: channel A0 reads 300, channel A1 reads 713, the
transmission fails. -/
def RemoteNode1.sampleInputs : RemoteNode1.Inputs :=
  { analogRead := fun ch => if ch = AnalogPin.A0 then 300 else 713
    writeOk := false }

/-- Remote Node 2 inputs: the flame pin reads low, channel A0 reads 512, the
transmission succeeds, the storage of `data` held the bytes 170, 85, 204. -/
def RemoteNode2.sampleInputs : RemoteNode2.Inputs :=
  { digitalRead := fun _ => LOW
    analogRead := fun _ => 512
    writeOk := true
    uninit := [170, 85, 204] }

/-- Remote Node 2 inputs with the flame pin reading high. -/
def RemoteNode2.quietInputs : RemoteNode2.Inputs :=
  { digitalRead := fun _ => HIGH
    analogRead := fun _ => 100
    writeOk := true
    uninit := [] }

/-- Remote Node 2 at power-on: no pin configured, every pin low, nothing done. -/
def RemoteNode2.powerOn : RemoteNode2.State :=
  { mode := fun _ => none, level := fun _ => LOW, trace := [] }

/-! ## Lemmas on raw bytes -/

theorem toBytesLE_length (w x : Nat) : (toBytesLE w x).length = w := by
  induction w generalizing x with
  | zero => rfl
  | succ w ih => simp [toBytesLE, ih]

theorem ofBytesLE_toBytesLE (w x : Nat) : ofBytesLE (toBytesLE w x) = x % 256 ^ w := by
  induction w generalizing x with
  | zero => simp [toBytesLE, ofBytesLE, Nat.mod_one]
  | succ w ih => rw [toBytesLE, ofBytesLE, ih, pow_succ', Nat.mod_mul]

theorem take_toBytesLE_append (w x : Nat) (rest : List Nat) :
    (toBytesLE w x ++ rest).take w = toBytesLE w x := by
  have h := toBytesLE_length w x
  rw [List.take_append_of_le_length (by omega), List.take_of_length_le (by omega)]

theorem drop_toBytesLE_append (w x : Nat) (rest : List Nat) :
    (toBytesLE w x ++ rest).drop w = rest := by
  have h := toBytesLE_length w x
  rw [List.drop_append_of_le_length (by omega), List.drop_of_length_le (by omega)]
  rfl

theorem two_pow_eight_mul (w : Nat) : (256 : Nat) ^ w = 2 ^ (8 * w) := by
  rw [pow_mul]
  norm_num

theorem intToBytes_length (w : Nat) (x : Int) : (intToBytes w x).length = w :=
  toBytesLE_length w _

/-- Reading back the bytes of an `int` gives the `int`, whatever follows them. -/
theorem intOfBytes_intToBytes (w : Nat) (x : Int) (rest : List Nat) (hw : 0 < w)
    (hx : IsInt w x) : intOfBytes w (intToBytes w x ++ rest) = x := by
  obtain ⟨hlo, hhi⟩ := hx
  have hM : (2 : Int) ^ (8 * w) = 2 * 2 ^ (8 * w - 1) := by
    rw [← pow_succ']
    congr 1
    omega
  have hMn : (2 : Nat) ^ (8 * w) = 2 * 2 ^ (8 * w - 1) := by
    rw [← pow_succ']
    congr 1
    omega
  have hHpos : (0 : Int) < 2 ^ (8 * w - 1) := by positivity
  have hcast : ((2 ^ (8 * w - 1) : Nat) : Int) = 2 ^ (8 * w - 1) := by push_cast; rfl
  unfold intOfBytes intToBytes
  rw [take_toBytesLE_append, ofBytesLE_toBytesLE, two_pow_eight_mul]
  by_cases hneg : 0 ≤ x
  · have hmod : x % 2 ^ (8 * w) = x := Int.emod_eq_of_lt hneg (by omega)
    rw [hmod]
    have hlt : x.toNat < 2 ^ (8 * w) := by
      have : (x.toNat : Int) = x := Int.toNat_of_nonneg hneg
      omega
    rw [Nat.mod_eq_of_lt hlt]
    have hx' : (x.toNat : Int) = x := Int.toNat_of_nonneg hneg
    have : 2 * x.toNat < 2 ^ (8 * w) := by omega
    simp only [this, if_true]
    exact hx'
  · have hmod : x % 2 ^ (8 * w) = x + 2 ^ (8 * w) := by
      rw [← Int.add_emod_self]
      exact Int.emod_eq_of_lt (by omega) (by omega)
    rw [hmod]
    have hnn : 0 ≤ x + 2 ^ (8 * w) := by omega
    have hx' : ((x + 2 ^ (8 * w)).toNat : Int) = x + 2 ^ (8 * w) := Int.toNat_of_nonneg hnn
    have hlt : (x + 2 ^ (8 * w)).toNat < 2 ^ (8 * w) := by omega
    rw [Nat.mod_eq_of_lt hlt]
    have : ¬ 2 * (x + 2 ^ (8 * w)).toNat < 2 ^ (8 * w) := by omega
    simp only [this, if_false]
    omega

theorem boolOfByte_boolToByte (b : Bool) : boolOfByte (boolToByte b) = b := by
  cases b <;> decide

theorem boolToByte_cast (b : Bool) : ((boolToByte b : Nat) : Int) = if b then 1 else 0 := by
  cases b <;> rfl

theorem floatToBytes_length (bits : Nat) : (floatToBytes bits).length = 4 :=
  toBytesLE_length 4 bits

theorem floatOfBytes_floatToBytes (bits : Nat) (rest : List Nat) (h : bits < 2 ^ 32) :
    floatOfBytes (floatToBytes bits ++ rest) = bits := by
  unfold floatOfBytes floatToBytes
  rw [take_toBytesLE_append, ofBytesLE_toBytesLE]
  exact Nat.mod_eq_of_lt (by norm_num at h ⊢; exact h)

theorem F32.ofFlt_lt (x : Flt) : F32.ofFlt x < 2 ^ 32 := by
  unfold F32.ofFlt
  simp only []
  split_ifs <;> omega

theorem RemoteNode2.voltageOf_lt (abi : ABI) (raw : Int) :
    RemoteNode2.voltageOf abi raw < 2 ^ 32 :=
  F32.ofFlt_lt _

/-! ## Lemmas on traces and records -/

theorem lastWrite_write_delay (tr : List Event) (p : List Nat) (ok : Bool) (ms : Nat) :
    lastWrite (tr ++ [Event.radioWrite p ok, Event.delay ms]) = some p := by
  induction tr with
  | nil => rfl
  | cons ev tr ih => simp [lastWrite, ih]

theorem RemoteNode1.SoilData.soil_toBytes_length (abi : ABI) (d : RemoteNode1.SoilData) :
    (d.toBytes abi).length = RemoteNode1.SoilData.sizeof abi := by
  simp [RemoteNode1.SoilData.toBytes, RemoteNode1.SoilData.sizeof, intToBytes_length]

theorem RemoteNode2.FireVoltData.fireVolt_toBytes_length (abi : ABI) (un : List Nat)
    (d : RemoteNode2.FireVoltData) :
    (d.toBytes abi un).length = RemoteNode2.FireVoltData.sizeof abi := by
  simp [RemoteNode2.FireVoltData.toBytes, RemoteNode2.FireVoltData.sizeof,
    floatToBytes_length]
  omega

/-- The trace of one cycle of Remote Node 1. -/
theorem RemoteNode1.soil_loop_trace (abi : ABI) (inp : RemoteNode1.Inputs) (s : RemoteNode1.State) :
    (RemoteNode1.loop abi inp s).trace =
      s.trace ++
        [Event.radioWrite
            (intToBytes abi.intBytes (inp.analogRead AnalogPin.A0) ++
              intToBytes abi.intBytes (inp.analogRead AnalogPin.A1)) inp.writeOk,
          Event.delay 2000] := by
  have hlen := RemoteNode1.SoilData.soil_toBytes_length abi
    { soilTop := inp.analogRead AnalogPin.A0, soilDeep := inp.analogRead AnalogPin.A1 }
  simp only [RemoteNode1.loop, RemoteNode1.delay, RemoteNode1.radioWrite]
  rw [List.take_of_length_le (le_of_eq hlen)]
  simp [RemoteNode1.SoilData.toBytes]

/-- The trace of one cycle of Remote Node 2. -/
theorem RemoteNode2.fire_loop_trace (abi : ABI) (inp : RemoteNode2.Inputs) (s : RemoteNode2.State) :
    (RemoteNode2.loop abi inp s).trace =
      s.trace ++
        [Event.digitalWrite 3 (if inp.digitalRead 2 = LOW then HIGH else LOW),
          Event.radioWrite
            (RemoteNode2.FireVoltData.toBytes abi inp.uninit
              { flameDetected := decide (inp.digitalRead 2 = LOW)
                voltage := RemoteNode2.voltageOf abi (inp.analogRead AnalogPin.A0) })
            inp.writeOk,
          Event.delay 2000] := by
  have hlen := RemoteNode2.FireVoltData.fireVolt_toBytes_length abi inp.uninit
    { flameDetected := decide (inp.digitalRead 2 = LOW)
      voltage := RemoteNode2.voltageOf abi (inp.analogRead AnalogPin.A0) }
  simp only [RemoteNode2.loop, RemoteNode2.delay, RemoteNode2.radioWrite]
  rw [List.take_of_length_le (le_of_eq hlen)]
  by_cases h : inp.digitalRead 2 = LOW <;> simp [h, RemoteNode2.digitalWrite]

/-- The level of the actuator pin after one cycle of Remote Node 2. -/
theorem RemoteNode2.loop_level (abi : ABI) (inp : RemoteNode2.Inputs) (s : RemoteNode2.State) :
    (RemoteNode2.loop abi inp s).level 3 = if inp.digitalRead 2 = LOW then HIGH else LOW := by
  simp only [RemoteNode2.loop, RemoteNode2.delay, RemoteNode2.radioWrite]
  by_cases h : inp.digitalRead 2 = LOW <;> simp [h, RemoteNode2.digitalWrite]

/-- One iteration of the Central Node with a pipe-1 payload pending. -/
theorem CentralNode.loop_pipe1 (abi : ABI) (pipe0 : Nat) (payload : List Nat)
    (rest : List (Nat × List Nat)) (tr : List Event) :
    CentralNode.loop abi pipe0 { radio := { rxFifo := (1, payload) :: rest }, trace := tr } =
      { radio := { rxFifo := rest }
        trace := tr ++
          [Event.radioRead (CentralNode.SoilData.sizeof abi),
            Event.print "Soil Top: ",
            Event.printInt (CentralNode.SoilData.ofBytes abi
              ((payload ++ List.replicate (CentralNode.SoilData.sizeof abi) 0).take
                (CentralNode.SoilData.sizeof abi))).soilTop,
            Event.print " Soil Deep: ",
            Event.printlnInt (CentralNode.SoilData.ofBytes abi
              ((payload ++ List.replicate (CentralNode.SoilData.sizeof abi) 0).take
                (CentralNode.SoilData.sizeof abi))).soilDeep] } := by
  simp [CentralNode.loop, CentralNode.Radio.available, CentralNode.Radio.availablePipe,
    CentralNode.radioRead, CentralNode.Radio.read, CentralNode.serial]

/-- One iteration of the Central Node with a pipe-2 payload pending. -/
theorem CentralNode.loop_pipe2 (abi : ABI) (pipe0 : Nat) (payload : List Nat)
    (rest : List (Nat × List Nat)) (tr : List Event) :
    CentralNode.loop abi pipe0 { radio := { rxFifo := (2, payload) :: rest }, trace := tr } =
      { radio := { rxFifo := rest }
        trace := tr ++
          [Event.radioRead (CentralNode.FireVoltData.sizeof abi),
            Event.print "Flame: ",
            Event.printInt ((CentralNode.FireVoltData.ofBytes abi
              ((payload ++ List.replicate (CentralNode.FireVoltData.sizeof abi) 0).take
                (CentralNode.FireVoltData.sizeof abi))).flameDetected : Int),
            Event.print " Voltage: ",
            Event.printlnFloat (CentralNode.FireVoltData.ofBytes abi
              ((payload ++ List.replicate (CentralNode.FireVoltData.sizeof abi) 0).take
                (CentralNode.FireVoltData.sizeof abi))).voltage] } := by
  simp [CentralNode.loop, CentralNode.Radio.available, CentralNode.Radio.availablePipe,
    CentralNode.radioRead, CentralNode.Radio.read, CentralNode.serial]

/-- One iteration of the Central Node with nothing pending, or with the oldest
pending payload on a pipe other than 1 and 2, changes nothing. -/
theorem CentralNode.loop_skip (abi : ABI) (pipe0 : Nat) (s : CentralNode.State)
    (h : s.radio.rxFifo = [] ∨
      ∃ p payload rest, s.radio.rxFifo = (p, payload) :: rest ∧ p ≠ 1 ∧ p ≠ 2) :
    CentralNode.loop abi pipe0 s = s := by
  rcases h with h | ⟨p, payload, rest, h, h1, h2⟩
  · simp [CentralNode.loop, CentralNode.Radio.available, h]
  · simp [CentralNode.loop, CentralNode.Radio.available, CentralNode.Radio.availablePipe,
      h, h1, h2]

theorem CentralNode.iterate_skip (abi : ABI) (pipe0 : Nat) (s : CentralNode.State)
    (h : CentralNode.loop abi pipe0 s = s) (n : Nat) :
    CentralNode.iterate abi pipe0 n s = s := by
  induction n with
  | zero => rfl
  | succ n ih => rw [CentralNode.iterate, h, ih]

/-- Reading a transmitted `FireVoltData` back from its bytes, the two sides
agreeing on the padding. -/
theorem CentralNode.FireVoltData.ofBytes_toBytes (nodeAbi centralAbi : ABI) (un : List Nat)
    (fl : Bool) (v : Nat) (hlayout : nodeAbi.floatPad = centralAbi.floatPad)
    (hv : v < 2 ^ 32) :
    CentralNode.FireVoltData.ofBytes centralAbi
        ((RemoteNode2.FireVoltData.toBytes nodeAbi un { flameDetected := fl, voltage := v } ++
          List.replicate (CentralNode.FireVoltData.sizeof centralAbi) 0).take
            (CentralNode.FireVoltData.sizeof centralAbi)) =
      { flameDetected := boolToByte fl, voltage := v } := by
  have hlen : (RemoteNode2.FireVoltData.toBytes nodeAbi un
      { flameDetected := fl, voltage := v }).length =
      CentralNode.FireVoltData.sizeof centralAbi := by
    rw [RemoteNode2.FireVoltData.fireVolt_toBytes_length]
    simp [RemoteNode2.FireVoltData.sizeof, CentralNode.FireVoltData.sizeof, hlayout]
  have hpad : ((un ++ List.replicate nodeAbi.floatPad 0).take nodeAbi.floatPad).length =
      nodeAbi.floatPad := by
    simp
  rw [List.take_append_of_le_length (le_of_eq hlen.symm),
    List.take_of_length_le (le_of_eq hlen)]
  unfold CentralNode.FireVoltData.ofBytes
  rw [← hlayout]
  have hhead : (RemoteNode2.FireVoltData.toBytes nodeAbi un
      { flameDetected := fl, voltage := v }).headD 0 = boolToByte fl := by
    simp [RemoteNode2.FireVoltData.toBytes]
  have hdrop : (RemoteNode2.FireVoltData.toBytes nodeAbi un
      { flameDetected := fl, voltage := v }).drop (1 + nodeAbi.floatPad) =
      floatToBytes v ++ [] := by
    unfold RemoteNode2.FireVoltData.toBytes
    rw [List.append_nil, List.drop_append_of_le_length (by simp; omega),
      List.drop_of_length_le (by simp; omega)]
    rfl
  rw [hhead, hdrop, floatOfBytes_floatToBytes _ _ hv]

/-! ## Round trips (C1, C2) -/

/-- C1: round trip on channel 1.  Let Remote Node 1 run one cycle on readings
that are `int` values, and let the payload it transmitted be the oldest
pending payload of the Central Node, on pipe 1, both sketches compiled with
the same `int` width.  Then the `SoilData` the Central Node reads has exactly
the `soilTop` and `soilDeep` of the sender, and these are the values it
prints. -/
theorem soil_round_trip (nodeAbi centralAbi : ABI) (inp : RemoteNode1.Inputs)
    (s : RemoteNode1.State) (pipe0 : Nat) (rest : List (Nat × List Nat)) (tr : List Event)
    (hlayout : nodeAbi.intBytes = centralAbi.intBytes) (hw : 0 < nodeAbi.intBytes)
    (h0 : IsInt nodeAbi.intBytes (inp.analogRead AnalogPin.A0))
    (h1 : IsInt nodeAbi.intBytes (inp.analogRead AnalogPin.A1)) :
    ∃ payload : List Nat,
      lastWrite (RemoteNode1.loop nodeAbi inp s).trace = some payload ∧
      payload.length = RemoteNode1.SoilData.sizeof nodeAbi ∧
      CentralNode.SoilData.ofBytes centralAbi
          (CentralNode.Radio.read { rxFifo := (1, payload) :: rest }
            (CentralNode.SoilData.sizeof centralAbi)).1 =
        { soilTop := inp.analogRead AnalogPin.A0, soilDeep := inp.analogRead AnalogPin.A1 } ∧
      CentralNode.loop centralAbi pipe0
          { radio := { rxFifo := (1, payload) :: rest }, trace := tr } =
        { radio := { rxFifo := rest }
          trace := tr ++
            [Event.radioRead (CentralNode.SoilData.sizeof centralAbi),
              Event.print "Soil Top: ",
              Event.printInt (inp.analogRead AnalogPin.A0),
              Event.print " Soil Deep: ",
              Event.printlnInt (inp.analogRead AnalogPin.A1)] } := by
  have hdec : CentralNode.SoilData.ofBytes centralAbi
      (((intToBytes nodeAbi.intBytes (inp.analogRead AnalogPin.A0) ++
          intToBytes nodeAbi.intBytes (inp.analogRead AnalogPin.A1)) ++
        List.replicate (CentralNode.SoilData.sizeof centralAbi) 0).take
          (CentralNode.SoilData.sizeof centralAbi)) =
      { soilTop := inp.analogRead AnalogPin.A0, soilDeep := inp.analogRead AnalogPin.A1 } := by
    have hlen : (intToBytes nodeAbi.intBytes (inp.analogRead AnalogPin.A0) ++
        intToBytes nodeAbi.intBytes (inp.analogRead AnalogPin.A1)).length =
        CentralNode.SoilData.sizeof centralAbi := by
      simp [CentralNode.SoilData.sizeof, intToBytes_length, hlayout]
    rw [List.take_append_of_le_length (le_of_eq hlen.symm),
      List.take_of_length_le (le_of_eq hlen)]
    unfold CentralNode.SoilData.ofBytes
    rw [← hlayout]
    congr 1
    · exact intOfBytes_intToBytes _ _ _ hw h0
    · have hdrop : (intToBytes nodeAbi.intBytes (inp.analogRead AnalogPin.A0) ++
          intToBytes nodeAbi.intBytes (inp.analogRead AnalogPin.A1)).drop nodeAbi.intBytes =
          intToBytes nodeAbi.intBytes (inp.analogRead AnalogPin.A1) ++ [] := by
        rw [List.append_nil]
        exact drop_toBytesLE_append _ _ _
      rw [hdrop]
      exact intOfBytes_intToBytes _ _ _ hw h1
  refine ⟨intToBytes nodeAbi.intBytes (inp.analogRead AnalogPin.A0) ++
      intToBytes nodeAbi.intBytes (inp.analogRead AnalogPin.A1), ?_, ?_, ?_, ?_⟩
  · rw [RemoteNode1.soil_loop_trace]
    exact lastWrite_write_delay _ _ _ _
  · simp [RemoteNode1.SoilData.sizeof, intToBytes_length]
  · simpa [CentralNode.Radio.read] using hdec
  · rw [CentralNode.loop_pipe1, hdec]

/-- The round trip on channel 1 at the sample readings 300 and 713 on two
AVR boards. -/
theorem soil_round_trip_witness :
    (avr.intBytes = avr.intBytes ∧ 0 < avr.intBytes ∧
      IsInt avr.intBytes (RemoteNode1.sampleInputs.analogRead AnalogPin.A0) ∧
      IsInt avr.intBytes (RemoteNode1.sampleInputs.analogRead AnalogPin.A1)) ∧
    ∃ payload : List Nat,
      lastWrite (RemoteNode1.loop avr RemoteNode1.sampleInputs RemoteNode1.setup).trace =
        some payload ∧
      payload.length = RemoteNode1.SoilData.sizeof avr ∧
      CentralNode.SoilData.ofBytes avr
          (CentralNode.Radio.read { rxFifo := (1, payload) :: [] }
            (CentralNode.SoilData.sizeof avr)).1 =
        { soilTop := RemoteNode1.sampleInputs.analogRead AnalogPin.A0
          soilDeep := RemoteNode1.sampleInputs.analogRead AnalogPin.A1 } ∧
      CentralNode.loop avr 0 { radio := { rxFifo := (1, payload) :: [] }, trace := [] } =
        { radio := { rxFifo := [] }
          trace := [] ++
            [Event.radioRead (CentralNode.SoilData.sizeof avr),
              Event.print "Soil Top: ",
              Event.printInt (RemoteNode1.sampleInputs.analogRead AnalogPin.A0),
              Event.print " Soil Deep: ",
              Event.printlnInt (RemoteNode1.sampleInputs.analogRead AnalogPin.A1)] } :=
  ⟨⟨rfl, by decide, by decide, by decide⟩,
    soil_round_trip avr avr RemoteNode1.sampleInputs RemoteNode1.setup 0 [] [] rfl
      (by decide) (by decide) (by decide)⟩

/-- C2: round trip on channel 2.  Let Remote Node 2 run one cycle, on any pin
readings and any previous contents of the storage of `data`, and let the
payload it transmitted be the oldest pending payload of the Central Node, on
pipe 2, both sketches compiled with the same padding in `FireVoltData`.  Then
the `FireVoltData` the Central Node reads has the `flameDetected` of the
sender (the byte stored for it is the sender's, and it stands for the same
truth value) and a `voltage` with the same bit pattern, and these are the
values it prints. -/
theorem fire_volt_round_trip (nodeAbi centralAbi : ABI) (inp : RemoteNode2.Inputs)
    (s : RemoteNode2.State) (pipe0 : Nat) (rest : List (Nat × List Nat)) (tr : List Event)
    (hlayout : nodeAbi.floatPad = centralAbi.floatPad) :
    ∃ payload : List Nat,
      lastWrite (RemoteNode2.loop nodeAbi inp s).trace = some payload ∧
      payload.length = RemoteNode2.FireVoltData.sizeof nodeAbi ∧
      CentralNode.FireVoltData.ofBytes centralAbi
          (CentralNode.Radio.read { rxFifo := (2, payload) :: rest }
            (CentralNode.FireVoltData.sizeof centralAbi)).1 =
        { flameDetected := boolToByte (decide (inp.digitalRead 2 = LOW))
          voltage := RemoteNode2.voltageOf nodeAbi (inp.analogRead AnalogPin.A0) } ∧
      boolOfByte (CentralNode.FireVoltData.ofBytes centralAbi
          (CentralNode.Radio.read { rxFifo := (2, payload) :: rest }
            (CentralNode.FireVoltData.sizeof centralAbi)).1).flameDetected =
        decide (inp.digitalRead 2 = LOW) ∧
      CentralNode.loop centralAbi pipe0
          { radio := { rxFifo := (2, payload) :: rest }, trace := tr } =
        { radio := { rxFifo := rest }
          trace := tr ++
            [Event.radioRead (CentralNode.FireVoltData.sizeof centralAbi),
              Event.print "Flame: ",
              Event.printInt (if decide (inp.digitalRead 2 = LOW) then 1 else 0),
              Event.print " Voltage: ",
              Event.printlnFloat
                (RemoteNode2.voltageOf nodeAbi (inp.analogRead AnalogPin.A0))] } := by
  have hdec := CentralNode.FireVoltData.ofBytes_toBytes nodeAbi centralAbi inp.uninit
    (decide (inp.digitalRead 2 = LOW))
    (RemoteNode2.voltageOf nodeAbi (inp.analogRead AnalogPin.A0))
    hlayout (RemoteNode2.voltageOf_lt _ _)
  refine ⟨RemoteNode2.FireVoltData.toBytes nodeAbi inp.uninit
    { flameDetected := decide (inp.digitalRead 2 = LOW)
      voltage := RemoteNode2.voltageOf nodeAbi (inp.analogRead AnalogPin.A0) },
    ?_, ?_, ?_, ?_, ?_⟩
  · rw [RemoteNode2.fire_loop_trace, List.append_cons]
    exact lastWrite_write_delay _ _ _ _
  · exact RemoteNode2.FireVoltData.fireVolt_toBytes_length _ _ _
  · simp only [CentralNode.Radio.read]
    exact hdec
  · simp only [CentralNode.Radio.read]
    rw [hdec]
    exact boolOfByte_boolToByte _
  · rw [CentralNode.loop_pipe2, hdec, boolToByte_cast]

/-- The round trip on channel 2 at the sample inputs, sender and receiver on
32-bit boards with three padding bytes. -/
theorem fire_volt_round_trip_witness :
    arm32.floatPad = arm32.floatPad ∧
    ∃ payload : List Nat,
      lastWrite (RemoteNode2.loop arm32 RemoteNode2.sampleInputs RemoteNode2.powerOn).trace =
        some payload ∧
      payload.length = RemoteNode2.FireVoltData.sizeof arm32 ∧
      CentralNode.FireVoltData.ofBytes arm32
          (CentralNode.Radio.read { rxFifo := (2, payload) :: [] }
            (CentralNode.FireVoltData.sizeof arm32)).1 =
        { flameDetected := boolToByte (decide (RemoteNode2.sampleInputs.digitalRead 2 = LOW))
          voltage := RemoteNode2.voltageOf arm32
            (RemoteNode2.sampleInputs.analogRead AnalogPin.A0) } ∧
      boolOfByte (CentralNode.FireVoltData.ofBytes arm32
          (CentralNode.Radio.read { rxFifo := (2, payload) :: [] }
            (CentralNode.FireVoltData.sizeof arm32)).1).flameDetected =
        decide (RemoteNode2.sampleInputs.digitalRead 2 = LOW) ∧
      CentralNode.loop arm32 7 { radio := { rxFifo := (2, payload) :: [] }, trace := [] } =
        { radio := { rxFifo := [] }
          trace := [] ++
            [Event.radioRead (CentralNode.FireVoltData.sizeof arm32),
              Event.print "Flame: ",
              Event.printInt
                (if decide (RemoteNode2.sampleInputs.digitalRead 2 = LOW) then 1 else 0),
              Event.print " Voltage: ",
              Event.printlnFloat
                (RemoteNode2.voltageOf arm32
                  (RemoteNode2.sampleInputs.analogRead AnalogPin.A0))] } :=
  ⟨rfl, fire_volt_round_trip arm32 arm32 RemoteNode2.sampleInputs RemoteNode2.powerOn 7 [] []
    rfl⟩

/-! ## The Central Node loop (C3, C4, C10) -/

/-- C3: channel-to-layout binding.  In an iteration of the Central Node loop
with a payload pending on pipe 1, the only calls are one `radio.read` of
`sizeof(SoilData)` bytes (two `int`s) and the four prints of the `SoilData`
branch: the first `int` of the bytes read, then the second.  With a payload
pending on pipe 2 the only calls are one `radio.read` of
`sizeof(FireVoltData)` bytes (one byte, the padding, four bytes) and the four
prints of the `FireVoltData` branch: the first byte read, widened to `int`,
then the `float` in the last four bytes.  In both cases exactly the pending
payload is taken off the queue.  Four instances spell the calls out: the
bytes 44, 1, 254, 255 on pipe 1 of an AVR board print 300 and -2; the bytes
1, 13, 50, 200, 66 print 3329 and -14286 on pipe 1 and, on pipe 2, the flag 1
and the `float` 0x42C8320D; the bytes 2, 0, 0, 0, 0, 0, 72, 67 on pipe 2 of a
32-bit board print the flag byte 2 and the `float` 0x43480000. -/
theorem channel_layout_binding (abi : ABI) (pipe0 : Nat) (payload : List Nat)
    (rest : List (Nat × List Nat)) (tr : List Event) :
    CentralNode.loop abi pipe0 { radio := { rxFifo := (1, payload) :: rest }, trace := tr } =
      { radio := { rxFifo := rest }
        trace := tr ++
          [Event.radioRead (abi.intBytes + abi.intBytes),
            Event.print "Soil Top: ",
            Event.printInt (intOfBytes abi.intBytes
              ((payload ++ List.replicate (abi.intBytes + abi.intBytes) 0).take
                (abi.intBytes + abi.intBytes))),
            Event.print " Soil Deep: ",
            Event.printlnInt (intOfBytes abi.intBytes
              (((payload ++ List.replicate (abi.intBytes + abi.intBytes) 0).take
                (abi.intBytes + abi.intBytes)).drop abi.intBytes))] } ∧
    CentralNode.loop abi pipe0 { radio := { rxFifo := (2, payload) :: rest }, trace := tr } =
      { radio := { rxFifo := rest }
        trace := tr ++
          [Event.radioRead (1 + abi.floatPad + 4),
            Event.print "Flame: ",
            Event.printInt
              ((((payload ++ List.replicate (1 + abi.floatPad + 4) 0).take
                (1 + abi.floatPad + 4)).headD 0 : Nat) : Int),
            Event.print " Voltage: ",
            Event.printlnFloat (ofBytesLE
              ((((payload ++ List.replicate (1 + abi.floatPad + 4) 0).take
                (1 + abi.floatPad + 4)).drop (1 + abi.floatPad)).take 4))] } ∧
    CentralNode.loop avr pipe0
        { radio := { rxFifo := (1, [44, 1, 254, 255]) :: rest }, trace := tr } =
      { radio := { rxFifo := rest }
        trace := tr ++
          [Event.radioRead 4, Event.print "Soil Top: ", Event.printInt 300,
            Event.print " Soil Deep: ", Event.printlnInt (-2)] } ∧
    CentralNode.loop avr pipe0
        { radio := { rxFifo := (1, [1, 13, 50, 200, 66]) :: rest }, trace := tr } =
      { radio := { rxFifo := rest }
        trace := tr ++
          [Event.radioRead 4, Event.print "Soil Top: ", Event.printInt 3329,
            Event.print " Soil Deep: ", Event.printlnInt (-14286)] } ∧
    CentralNode.loop avr pipe0
        { radio := { rxFifo := (2, [1, 13, 50, 200, 66]) :: rest }, trace := tr } =
      { radio := { rxFifo := rest }
        trace := tr ++
          [Event.radioRead 5, Event.print "Flame: ", Event.printInt 1,
            Event.print " Voltage: ", Event.printlnFloat 1120416269] } ∧
    CentralNode.loop arm32 pipe0
        { radio := { rxFifo := (2, [2, 0, 0, 0, 0, 0, 72, 67]) :: rest }, trace := tr } =
      { radio := { rxFifo := rest }
        trace := tr ++
          [Event.radioRead 8, Event.print "Flame: ", Event.printInt 2,
            Event.print " Voltage: ", Event.printlnFloat 1128792064] } := by
  refine ⟨?_, ?_, ?_, ?_, ?_, ?_⟩
  · rw [CentralNode.loop_pipe1]
    rfl
  · rw [CentralNode.loop_pipe2]
    rfl
  · rw [CentralNode.loop_pipe1]
    have h1 : (CentralNode.SoilData.ofBytes avr
        (([44, 1, 254, 255] ++ List.replicate (CentralNode.SoilData.sizeof avr) 0).take
          (CentralNode.SoilData.sizeof avr))) = { soilTop := 300, soilDeep := -2 } := by
      decide
    rw [h1]
    rfl
  · rw [CentralNode.loop_pipe1]
    have h1 : (CentralNode.SoilData.ofBytes avr
        (([1, 13, 50, 200, 66] ++ List.replicate (CentralNode.SoilData.sizeof avr) 0).take
          (CentralNode.SoilData.sizeof avr))) = { soilTop := 3329, soilDeep := -14286 } := by
      decide
    rw [h1]
    rfl
  · rw [CentralNode.loop_pipe2]
    have h1 : (CentralNode.FireVoltData.ofBytes avr
        (([1, 13, 50, 200, 66] ++ List.replicate (CentralNode.FireVoltData.sizeof avr) 0).take
          (CentralNode.FireVoltData.sizeof avr))) =
        { flameDetected := 1, voltage := 1120416269 } := by
      decide
    rw [h1]
    rfl
  · rw [CentralNode.loop_pipe2]
    have h1 : (CentralNode.FireVoltData.ofBytes arm32
        (([2, 0, 0, 0, 0, 0, 72, 67] ++
          List.replicate (CentralNode.FireVoltData.sizeof arm32) 0).take
          (CentralNode.FireVoltData.sizeof arm32))) =
        { flameDetected := 2, voltage := 1128792064 } := by
      decide
    rw [h1]
    rfl

/-- C4: an empty poll is a no-op.  When `radio.available()` reports no data,
one iteration of the Central Node loop returns the state unchanged: the
receive queue is the same and no call (no `radio.read`, no print) is added to
the trace; any number of consecutive iterations has the effect of one. -/
theorem empty_poll_noop (abi : ABI) (pipe0 : Nat) (s : CentralNode.State)
    (h : s.radio.available = false) :
    CentralNode.loop abi pipe0 s = s ∧
      ∀ n : Nat, CentralNode.iterate abi pipe0 n s = CentralNode.loop abi pipe0 s := by
  have hnil : s.radio.rxFifo = [] := by
    cases hq : s.radio.rxFifo with
    | nil => rfl
    | cons a l => simp [CentralNode.Radio.available, hq] at h
  have hloop := CentralNode.loop_skip abi pipe0 s (Or.inl hnil)
  refine ⟨hloop, fun n => ?_⟩
  rw [hloop]
  exact CentralNode.iterate_skip abi pipe0 s hloop n

/-- The empty poll right after `setup`, where nothing is pending. -/
theorem empty_poll_noop_witness :
    CentralNode.setup.radio.available = false ∧
    (CentralNode.loop avr 0 CentralNode.setup = CentralNode.setup ∧
      ∀ n : Nat, CentralNode.iterate avr 0 n CentralNode.setup =
        CentralNode.loop avr 0 CentralNode.setup) :=
  ⟨rfl, empty_poll_noop avr 0 CentralNode.setup rfl⟩

/-- C10: a payload on a pipe other than 1 and 2 is never consumed.  When the
oldest pending payload arrived on such a pipe, one iteration of the Central
Node loop returns the state unchanged (no `radio.read`, no print), so the same
payload is still the oldest pending one, the next poll reports the same pipe,
and any number of further iterations leaves it there. -/
theorem unhandled_pipe_not_consumed (abi : ABI) (pipe0 pipe1 : Nat) (s : CentralNode.State)
    (p : Nat) (payload : List Nat) (rest : List (Nat × List Nat))
    (hq : s.radio.rxFifo = (p, payload) :: rest) (h1 : p ≠ 1) (h2 : p ≠ 2) :
    CentralNode.loop abi pipe0 s = s ∧
      (CentralNode.loop abi pipe0 s).radio.rxFifo.head? = some (p, payload) ∧
      (CentralNode.loop abi pipe0 s).radio.available = true ∧
      (CentralNode.loop abi pipe0 s).radio.availablePipe pipe1 = p ∧
      ∀ n : Nat, CentralNode.iterate abi pipe0 n s = s := by
  have hloop := CentralNode.loop_skip abi pipe0 s (Or.inr ⟨p, payload, rest, hq, h1, h2⟩)
  rw [hloop]
  refine ⟨rfl, ?_, ?_, ?_, CentralNode.iterate_skip abi pipe0 s hloop⟩
  · rw [hq]
    rfl
  · simp [CentralNode.Radio.available, hq]
  · simp [CentralNode.Radio.availablePipe, hq]

/-- A payload pending on pipe 0, ahead of one on pipe 1. -/
theorem unhandled_pipe_not_consumed_witness :
    ((({ radio := { rxFifo := (0, [1, 2, 3, 4]) :: [(1, [44, 1, 201, 2])] }, trace := [] } :
        CentralNode.State).radio.rxFifo = (0, [1, 2, 3, 4]) :: [(1, [44, 1, 201, 2])]) ∧
      (0 : Nat) ≠ 1 ∧ (0 : Nat) ≠ 2) ∧
    (CentralNode.loop avr 5
        { radio := { rxFifo := (0, [1, 2, 3, 4]) :: [(1, [44, 1, 201, 2])] }, trace := [] } =
        { radio := { rxFifo := (0, [1, 2, 3, 4]) :: [(1, [44, 1, 201, 2])] }, trace := [] } ∧
      (CentralNode.loop avr 5
        { radio := { rxFifo := (0, [1, 2, 3, 4]) :: [(1, [44, 1, 201, 2])] },
          trace := [] }).radio.rxFifo.head? = some (0, [1, 2, 3, 4]) ∧
      (CentralNode.loop avr 5
        { radio := { rxFifo := (0, [1, 2, 3, 4]) :: [(1, [44, 1, 201, 2])] },
          trace := [] }).radio.available = true ∧
      (CentralNode.loop avr 5
        { radio := { rxFifo := (0, [1, 2, 3, 4]) :: [(1, [44, 1, 201, 2])] },
          trace := [] }).radio.availablePipe 1 = 0 ∧
      ∀ n : Nat, CentralNode.iterate avr 5 n
        { radio := { rxFifo := (0, [1, 2, 3, 4]) :: [(1, [44, 1, 201, 2])] }, trace := [] } =
        { radio := { rxFifo := (0, [1, 2, 3, 4]) :: [(1, [44, 1, 201, 2])] }, trace := [] }) :=
  ⟨⟨rfl, by decide, by decide⟩,
    unhandled_pipe_not_consumed avr 5 1
      { radio := { rxFifo := (0, [1, 2, 3, 4]) :: [(1, [44, 1, 201, 2])] }, trace := [] }
      0 [1, 2, 3, 4] [(1, [44, 1, 201, 2])] rfl (by decide) (by decide)⟩

/-! ## The remote nodes (C5, C7, C8, C9) -/

theorem RemoteNode2.lastWrite_loop (abi : ABI) (inp : RemoteNode2.Inputs)
    (s : RemoteNode2.State) :
    lastWrite (RemoteNode2.loop abi inp s).trace =
      some (RemoteNode2.FireVoltData.toBytes abi inp.uninit
        { flameDetected := decide (inp.digitalRead 2 = LOW)
          voltage := RemoteNode2.voltageOf abi (inp.analogRead AnalogPin.A0) }) := by
  rw [RemoteNode2.fire_loop_trace, List.append_cons]
  exact lastWrite_write_delay _ _ _ _

theorem RemoteNode2.run_append (abi : ABI) (s : RemoteNode2.State)
    (ins : List RemoteNode2.Inputs) (inp : RemoteNode2.Inputs) :
    RemoteNode2.run abi s (ins ++ [inp]) = RemoteNode2.loop abi inp (RemoteNode2.run abi s ins) := by
  simp [RemoteNode2.run, List.foldl_append]

theorem RemoteNode2.setup_level (s : RemoteNode2.State) : (RemoteNode2.setup s).level 3 = LOW := by
  simp [RemoteNode2.setup, RemoteNode2.digitalWrite]

theorem LOW_ne_HIGH : LOW ≠ HIGH := by decide

/-- C5: flame polarity and actuator in one cycle of Remote Node 2.  If pin 2
reads low, the record transmitted in the cycle has `flameDetected = true` and
pin 3 is driven high; if pin 2 reads high, the record transmitted has
`flameDetected = false` and pin 3 is driven low. -/
theorem flame_polarity (abi : ABI) (inp : RemoteNode2.Inputs) (s : RemoteNode2.State) :
    (inp.digitalRead 2 = LOW →
      lastWrite (RemoteNode2.loop abi inp s).trace =
        some (RemoteNode2.FireVoltData.toBytes abi inp.uninit
          { flameDetected := true
            voltage := RemoteNode2.voltageOf abi (inp.analogRead AnalogPin.A0) }) ∧
      Event.digitalWrite 3 HIGH ∈ (RemoteNode2.loop abi inp s).trace.drop s.trace.length ∧
      Event.digitalWrite 3 LOW ∉ (RemoteNode2.loop abi inp s).trace.drop s.trace.length ∧
      (RemoteNode2.loop abi inp s).level 3 = HIGH) ∧
    (inp.digitalRead 2 = HIGH →
      lastWrite (RemoteNode2.loop abi inp s).trace =
        some (RemoteNode2.FireVoltData.toBytes abi inp.uninit
          { flameDetected := false
            voltage := RemoteNode2.voltageOf abi (inp.analogRead AnalogPin.A0) }) ∧
      Event.digitalWrite 3 LOW ∈ (RemoteNode2.loop abi inp s).trace.drop s.trace.length ∧
      Event.digitalWrite 3 HIGH ∉ (RemoteNode2.loop abi inp s).trace.drop s.trace.length ∧
      (RemoteNode2.loop abi inp s).level 3 = LOW) := by
  have hne : HIGH ≠ LOW := fun h => LOW_ne_HIGH h.symm
  constructor
  · intro h
    refine ⟨?_, ?_, ?_, ?_⟩
    · rw [RemoteNode2.lastWrite_loop]
      simp [h]
    · rw [RemoteNode2.fire_loop_trace]
      simp [h]
    · rw [RemoteNode2.fire_loop_trace]
      simp [h, LOW_ne_HIGH]
    · rw [RemoteNode2.loop_level]
      simp [h]
  · intro h
    refine ⟨?_, ?_, ?_, ?_⟩
    · rw [RemoteNode2.lastWrite_loop]
      simp [h, hne]
    · rw [RemoteNode2.fire_loop_trace]
      simp [h, hne]
    · rw [RemoteNode2.fire_loop_trace]
      simp [h, hne]
    · rw [RemoteNode2.loop_level]
      simp [h, hne]

/-- Both polarities on an AVR board right after power-on: the sample inputs read
the flame pin low, the quiet inputs read it high. -/
theorem flame_polarity_witness :
    (RemoteNode2.sampleInputs.digitalRead 2 = LOW ∧
      RemoteNode2.quietInputs.digitalRead 2 = HIGH) ∧
    (lastWrite (RemoteNode2.loop avr RemoteNode2.sampleInputs RemoteNode2.powerOn).trace =
        some (RemoteNode2.FireVoltData.toBytes avr RemoteNode2.sampleInputs.uninit
          { flameDetected := true
            voltage := RemoteNode2.voltageOf avr
              (RemoteNode2.sampleInputs.analogRead AnalogPin.A0) }) ∧
      Event.digitalWrite 3 HIGH ∈
        (RemoteNode2.loop avr RemoteNode2.sampleInputs RemoteNode2.powerOn).trace.drop
          RemoteNode2.powerOn.trace.length ∧
      Event.digitalWrite 3 LOW ∉
        (RemoteNode2.loop avr RemoteNode2.sampleInputs RemoteNode2.powerOn).trace.drop
          RemoteNode2.powerOn.trace.length ∧
      (RemoteNode2.loop avr RemoteNode2.sampleInputs RemoteNode2.powerOn).level 3 = HIGH) ∧
    (lastWrite (RemoteNode2.loop avr RemoteNode2.quietInputs RemoteNode2.powerOn).trace =
        some (RemoteNode2.FireVoltData.toBytes avr RemoteNode2.quietInputs.uninit
          { flameDetected := false
            voltage := RemoteNode2.voltageOf avr
              (RemoteNode2.quietInputs.analogRead AnalogPin.A0) }) ∧
      Event.digitalWrite 3 LOW ∈
        (RemoteNode2.loop avr RemoteNode2.quietInputs RemoteNode2.powerOn).trace.drop
          RemoteNode2.powerOn.trace.length ∧
      Event.digitalWrite 3 HIGH ∉
        (RemoteNode2.loop avr RemoteNode2.quietInputs RemoteNode2.powerOn).trace.drop
          RemoteNode2.powerOn.trace.length ∧
      (RemoteNode2.loop avr RemoteNode2.quietInputs RemoteNode2.powerOn).level 3 = LOW) :=
  ⟨⟨rfl, rfl⟩,
    (flame_polarity avr RemoteNode2.sampleInputs RemoteNode2.powerOn).1 rfl,
    (flame_polarity avr RemoteNode2.quietInputs RemoteNode2.powerOn).2 rfl⟩

/-- C7: Remote Node 1 passes the raw readings through.  The payload handed to
the radio in a cycle is the object representation of the record with
`soilTop` the reading of channel A0 and `soilDeep` the reading of channel A1;
for readings that are `int` values, the first `int` of the payload is the A0
reading itself and the second the A1 reading itself. -/
theorem raw_readings_pass_through (abi : ABI) (inp : RemoteNode1.Inputs)
    (s : RemoteNode1.State) :
    lastWrite (RemoteNode1.loop abi inp s).trace =
        some (RemoteNode1.SoilData.toBytes abi
          { soilTop := inp.analogRead AnalogPin.A0, soilDeep := inp.analogRead AnalogPin.A1 }) ∧
    (0 < abi.intBytes → IsInt abi.intBytes (inp.analogRead AnalogPin.A0) →
      IsInt abi.intBytes (inp.analogRead AnalogPin.A1) →
      ∃ payload : List Nat, lastWrite (RemoteNode1.loop abi inp s).trace = some payload ∧
        intOfBytes abi.intBytes payload = inp.analogRead AnalogPin.A0 ∧
        intOfBytes abi.intBytes (payload.drop abi.intBytes) = inp.analogRead AnalogPin.A1) := by
  have hlast : lastWrite (RemoteNode1.loop abi inp s).trace =
      some (intToBytes abi.intBytes (inp.analogRead AnalogPin.A0) ++
        intToBytes abi.intBytes (inp.analogRead AnalogPin.A1)) := by
    rw [RemoteNode1.soil_loop_trace]
    exact lastWrite_write_delay _ _ _ _
  refine ⟨hlast, fun hw h0 h1 => ⟨_, hlast, intOfBytes_intToBytes _ _ _ hw h0, ?_⟩⟩
  have hdrop : (intToBytes abi.intBytes (inp.analogRead AnalogPin.A0) ++
      intToBytes abi.intBytes (inp.analogRead AnalogPin.A1)).drop abi.intBytes =
      intToBytes abi.intBytes (inp.analogRead AnalogPin.A1) ++ [] := by
    rw [List.append_nil]
    exact drop_toBytesLE_append _ _ _
  rw [hdrop]
  exact intOfBytes_intToBytes _ _ _ hw h1

/-- The readings 300 and 713 passed through on an AVR board. -/
theorem raw_readings_pass_through_witness :
    (0 < avr.intBytes ∧ IsInt avr.intBytes (RemoteNode1.sampleInputs.analogRead AnalogPin.A0) ∧
      IsInt avr.intBytes (RemoteNode1.sampleInputs.analogRead AnalogPin.A1)) ∧
    ∃ payload : List Nat,
      lastWrite (RemoteNode1.loop avr RemoteNode1.sampleInputs RemoteNode1.setup).trace =
        some payload ∧
      intOfBytes avr.intBytes payload = RemoteNode1.sampleInputs.analogRead AnalogPin.A0 ∧
      intOfBytes avr.intBytes (payload.drop avr.intBytes) =
        RemoteNode1.sampleInputs.analogRead AnalogPin.A1 :=
  ⟨⟨by decide, by decide, by decide⟩,
    (raw_readings_pass_through avr RemoteNode1.sampleInputs RemoteNode1.setup).2
      (by decide) (by decide) (by decide)⟩

/-- C8: fire-and-forget transmission.  Whatever `radio.write` returns, one
cycle of Remote Node 1 makes exactly the calls `radio.write` (once, with the
record) and `delay(2000)`, and one cycle of Remote Node 2 makes exactly the
calls `digitalWrite` on pin 3, `radio.write` (once, with the record) and
`delay(2000)`, so exactly one transmission per cycle.  The payload, the calls
after the write and the pin levels do not depend on the result of the write:
a success and a failure give the same trace once the recorded result is
forgotten, and the same pin levels. -/
theorem fire_and_forget (abi : ABI) (ar : AnalogPin → Int) (dr : Nat → Int) (un : List Nat)
    (ok : Bool) (s1 : RemoteNode1.State) (s2 : RemoteNode2.State) :
    (RemoteNode1.loop abi { analogRead := ar, writeOk := ok } s1).trace =
        s1.trace ++
          [Event.radioWrite
              (RemoteNode1.SoilData.toBytes abi
                { soilTop := ar AnalogPin.A0, soilDeep := ar AnalogPin.A1 }) ok,
            Event.delay 2000] ∧
    (RemoteNode2.loop abi { digitalRead := dr, analogRead := ar, writeOk := ok, uninit := un }
          s2).trace =
        s2.trace ++
          [Event.digitalWrite 3 (if dr 2 = LOW then HIGH else LOW),
            Event.radioWrite
              (RemoteNode2.FireVoltData.toBytes abi un
                { flameDetected := decide (dr 2 = LOW)
                  voltage := RemoteNode2.voltageOf abi (ar AnalogPin.A0) }) ok,
            Event.delay 2000] ∧
    ((RemoteNode1.loop abi { analogRead := ar, writeOk := ok } s1).trace.drop
        s1.trace.length).countP Event.isWrite = 1 ∧
    ((RemoteNode2.loop abi { digitalRead := dr, analogRead := ar, writeOk := ok, uninit := un }
        s2).trace.drop s2.trace.length).countP Event.isWrite = 1 ∧
    (RemoteNode1.loop abi { analogRead := ar, writeOk := true } s1).trace.map Event.eraseResult =
      (RemoteNode1.loop abi { analogRead := ar, writeOk := false } s1).trace.map
        Event.eraseResult ∧
    (RemoteNode2.loop abi { digitalRead := dr, analogRead := ar, writeOk := true, uninit := un }
        s2).trace.map Event.eraseResult =
      (RemoteNode2.loop abi { digitalRead := dr, analogRead := ar, writeOk := false, uninit := un }
        s2).trace.map Event.eraseResult ∧
    (RemoteNode2.loop abi { digitalRead := dr, analogRead := ar, writeOk := true, uninit := un }
        s2).level =
      (RemoteNode2.loop abi { digitalRead := dr, analogRead := ar, writeOk := false, uninit := un }
        s2).level := by
  refine ⟨?_, ?_, ?_, ?_, ?_, ?_, ?_⟩
  · rw [RemoteNode1.soil_loop_trace]
    rfl
  · rw [RemoteNode2.fire_loop_trace]
  · rw [RemoteNode1.soil_loop_trace]
    simp [Event.isWrite]
  · rw [RemoteNode2.fire_loop_trace]
    simp [Event.isWrite]
  · rw [RemoteNode1.soil_loop_trace, RemoteNode1.soil_loop_trace]
    simp [Event.eraseResult]
  · rw [RemoteNode2.fire_loop_trace, RemoteNode2.fire_loop_trace]
    simp [Event.eraseResult]
  · simp only [RemoteNode2.loop, RemoteNode2.delay, RemoteNode2.radioWrite]

/-- C9: the actuator invariant of Remote Node 2.  Right after `setup` pin 3 is
low.  After every cycle, from any state, pin 3 is high if and only if the
record transmitted in that cycle has `flameDetected = true`.  Hence, after
`setup` and any sequence of cycles, pin 3 is high only if the sequence is not
empty and the flame pin read low in its last cycle. -/
theorem actuator_invariant (abi : ABI) (s : RemoteNode2.State) :
    (RemoteNode2.setup s).level 3 = LOW ∧
    (∀ inp : RemoteNode2.Inputs, ∃ d : RemoteNode2.FireVoltData,
      lastWrite (RemoteNode2.loop abi inp s).trace = some (d.toBytes abi inp.uninit) ∧
      ((RemoteNode2.loop abi inp s).level 3 = HIGH ↔ d.flameDetected = true)) ∧
    (∀ ins : List RemoteNode2.Inputs, (RemoteNode2.run abi s ins).level 3 = HIGH →
      ∃ inp ∈ ins, ins.getLast? = some inp ∧ inp.digitalRead 2 = LOW) := by
  refine ⟨RemoteNode2.setup_level s, fun inp => ⟨_, RemoteNode2.lastWrite_loop abi inp s, ?_⟩,
    fun ins h => ?_⟩
  · rw [RemoteNode2.loop_level]
    by_cases hr : inp.digitalRead 2 = LOW
    · simp [hr]
    · simp [hr, LOW_ne_HIGH]
  · rcases List.eq_nil_or_concat ins with hnil | ⟨l, a, hl⟩
    · subst hnil
      have h0 : (RemoteNode2.run abi s []).level 3 = LOW := RemoteNode2.setup_level s
      rw [h0] at h
      exact absurd h LOW_ne_HIGH
    · subst hl
      rw [List.concat_eq_append] at h ⊢
      rw [RemoteNode2.run_append, RemoteNode2.loop_level] at h
      refine ⟨a, by simp, by simp, ?_⟩
      by_contra hr
      rw [if_neg hr] at h
      exact LOW_ne_HIGH h

/-- A run of two cycles from power-on, the flame pin reading high and then
low, after which pin 3 is high. -/
theorem actuator_invariant_witness :
    (RemoteNode2.run avr RemoteNode2.powerOn
        [RemoteNode2.quietInputs, RemoteNode2.sampleInputs]).level 3 = HIGH ∧
    ∃ inp ∈ [RemoteNode2.quietInputs, RemoteNode2.sampleInputs],
      [RemoteNode2.quietInputs, RemoteNode2.sampleInputs].getLast? = some inp ∧
        inp.digitalRead 2 = LOW :=
  ⟨rfl, (actuator_invariant avr RemoteNode2.powerOn).2.2
    [RemoteNode2.quietInputs, RemoteNode2.sampleInputs] rfl⟩

/-! ## Voltage scaling (C6) -/

theorem voltageOf_avr_512 : RemoteNode2.voltageOf avr 512 = 1120416268 := by decide

set_option maxRecDepth 100000 in
theorem voltageOf_arm32_512 : RemoteNode2.voltageOf arm32 512 = 1120416269 := by decide

theorem F32.toRat_1120416268 : F32.toRat 1120416268 = 13120012 / 131072 := by
  have h : F32.toFlt 1120416268 = some { neg := false, m := 13120012, e := -17 } := by decide
  rw [F32.toRat, h]
  norm_num [Flt.toRat]

theorem F32.toRat_1120416269 : F32.toRat 1120416269 = 13120013 / 131072 := by
  have h : F32.toFlt 1120416269 = some { neg := false, m := 13120013, e := -17 } := by decide
  rw [F32.toRat, h]
  norm_num [Flt.toRat]

/-- C6, as stated, fails: at the raw reading 512 the voltage computed by
Remote Node 2 is more than 1/10 away from 100.2, with `double` a 32-bit
format as well as with `double` a 64-bit format. -/
theorem voltage_512_not_100_2 :
    ¬ (|F32.toRat (RemoteNode2.voltageOf avr 512) - 1002 / 10| ≤ 1 / 10) ∧
    ¬ (|F32.toRat (RemoteNode2.voltageOf arm32 512) - 1002 / 10| ≤ 1 / 10) := by
  rw [voltageOf_avr_512, voltageOf_arm32_512, F32.toRat_1120416268, F32.toRat_1120416269]
  constructor
  · rw [abs_le]
    norm_num
  · rw [abs_le]
    norm_num

/-- C6, amended: at the raw reading 512 the voltage computed by Remote Node 2
is the `float` next to 512 * 5 / 1023 * 40 = 102400 / 1023 (about 100.0978):
it is within 1/100000 of that number, hence within 1/100 of 100.1, with
`double` a 32-bit format as well as with `double` a 64-bit format. -/
theorem voltage_512_value :
    (|F32.toRat (RemoteNode2.voltageOf avr 512) - 102400 / 1023| ≤ 1 / 100000 ∧
      |F32.toRat (RemoteNode2.voltageOf avr 512) - 1001 / 10| ≤ 1 / 100) ∧
    (|F32.toRat (RemoteNode2.voltageOf arm32 512) - 102400 / 1023| ≤ 1 / 100000 ∧
      |F32.toRat (RemoteNode2.voltageOf arm32 512) - 1001 / 10| ≤ 1 / 100) := by
  rw [voltageOf_avr_512, voltageOf_arm32_512, F32.toRat_1120416268, F32.toRat_1120416269]
  refine ⟨⟨?_, ?_⟩, ⟨?_, ?_⟩⟩ <;> rw [abs_le] <;> norm_num

/-! ## The layout hypothesis of the round trips -/

/-- The agreement on the `int` width in `soil_round_trip` is needed: the
payload of a sender with 16-bit `int` (readings 300 and 713) is read by a
receiver with 32-bit `int` as the pair 46727468 and 0. -/
theorem soil_layout_mismatch :
    CentralNode.SoilData.ofBytes arm32
        (CentralNode.Radio.read
          { rxFifo := [(1, RemoteNode1.SoilData.toBytes avr { soilTop := 300, soilDeep := 713 })] }
          (CentralNode.SoilData.sizeof arm32)).1 =
      { soilTop := 46727468, soilDeep := 0 } := by
  decide

end SmartAgroTech
